import Mathlib

set_option autoImplicit false

/-!
Verification of the jb-serve tool server against its specification.

The definitions below are a shallow embedding of the Go source:

* `internal/tools/executor.go` — RPC executor: call dispatch, process
  tables, health supervision, eval-transport response parsing;
* `internal/server/server.go` — HTTP surface: auth middleware and
  multipart request parsing;
* the tool registry (`Manager.Install`) and the file store
  (`filestore` package).

Go maps whose values are consumed by key lookup are modelled as
association lists with unique keys; Go process tables are modelled as
finite sets of tool names (the handle itself is irrelevant to the
claims).  JSON values are modelled by the inductive `JsonVal`; Go's
float64 JSON numbers are represented by `Rat`, which is harmless here
because no claim depends on numeric representation.
-/

namespace JBServe

/-- A JSON-like value, as produced by Go's `encoding/json` decoding
into `interface\x7b\x7d`: objects become key/value lists (keys unique),
arrays become lists. -/
inductive JsonVal where
  | null
  | boolean (b : Bool)
  | num (q : Rat)
  | str (s : String)
  | arr (items : List JsonVal)
  | obj (fields : List (String × JsonVal))

/-- Lookup of a field in a decoded JSON object (Go map indexing; keys
of a decoded object are unique, so first-match lookup is faithful). -/
def jlookup : List (String × JsonVal) → String → Option JsonVal
  | [], _ => none
  | (k, v) :: rest, key => if k = key then some v else jlookup rest key

namespace Exec

/-- `checkHealthResult` (executor.go): the response is healthy when it is
an object whose `status` field is the string "ok" (first branch), or the
literal string "ok" (second branch); anything else is unhealthy. -/
def checkHealthResult (result : JsonVal) : Bool :=
  (match result with
   | .obj fields =>
     (match jlookup fields "status" with
      | some (.str s) => s = "ok"
      | _ => false)
   | _ => false)
  ||
  (match result with
   | .str s => s = "ok"
   | _ => false)

/-- The health-relevant fields of the `Tool` record (executor.go):
`HealthStatus` and the consecutive-failure counter `HealthFailures`. -/
structure ToolHealth where
  healthStatus : String
  healthFailures : Int

/-- One tick of `doHealthCheck` seen from the supervisor loop: `none`
models the health call itself failing (tool not running or transport
error), `some v` a response `v`; the tick is healthy iff the call
succeeded and `checkHealthResult` accepted the response. -/
def tickHealthy : Option JsonVal → Bool
  | none => false
  | some v => checkHealthResult v

/-- The `case <-ticker.C` body of `runHealthCheck` (identical in
`runHealthCheckMsgpack`): a failing tick increments `HealthFailures` and,
once the counter has reached the threshold, sets `HealthStatus` to
"unhealthy"; a healthy tick sets "healthy" and resets the counter. -/
def healthTick (threshold : Int) (t : ToolHealth) (resp : Option JsonVal) : ToolHealth :=
  if tickHealthy resp then
    { healthStatus := "healthy", healthFailures := 0 }
  else
    let f := t.healthFailures + 1
    if threshold ≤ f then { healthStatus := "unhealthy", healthFailures := f }
    else { healthStatus := t.healthStatus, healthFailures := f }

end Exec

namespace Server

/-- `authMiddleware` (server.go): when a bearer credential is
configured, the request token is the `Authorization` header, or the
`token` query parameter when the header is empty; the request passes iff
that token equals `"Bearer " ++ authToken` or the bare `authToken`. -/
def authAllows (authToken header queryToken : String) : Bool :=
  if authToken = "" then true
  else if (if header = "" then queryToken else header) = "Bearer " ++ authToken
          ∨ (if header = "" then queryToken else header) = authToken then true
  else false

/-- Modelled from the spec's words (§4.5 Authentication, claim C4), for
comparison with `authAllows`: a request is processed exactly when it
presents `Authorization: Bearer <token>` or a `token` query parameter
equal to the credential; a request with any other non-empty
Authorization header is rejected even if its query parameter is
correct. -/
def authAllowsClaimed (authToken header queryToken : String) : Bool :=
  if authToken = "" then true
  else if header = "Bearer " ++ authToken then true
  else if ¬ header = "" then false
  else if queryToken = authToken then true
  else false

/-- A simplified JSON schema node (config.Schema): a type tag, named
sub-schemas (a `none` entry models a nil `*Schema` pointer), a
required-field list.  Only the top level of `properties` is consulted by
the functions modelled here. -/
inductive Schema where
  | node (type : String) (properties : List (String × Option Schema)) (required : List String)

def schemaType : Schema → String
  | .node t _ _ => t

/-- `getFileFields` (server.go): the set of input-schema property names
whose declared type is "file" (a nil input schema contributes none). -/
def getFileFields (input : Option Schema) : List String :=
  match input with
  | none => []
  | some (.node _ props _) =>
    (props.filter (fun p =>
      match p.2 with
      | some s => schemaType s = "file"
      | none => false)).map (·.1)

/-- Assignment `params[k] = v` on a Go map modelled as an association
list with unique keys: replace the binding when present, else append. -/
def setKey : List (String × JsonVal) → String → JsonVal → List (String × JsonVal)
  | [], k, v => [(k, v)]
  | (k0, v0) :: rest, k, v =>
    if k0 = k then (k, v) :: rest else (k0, v0) :: setKey rest k v

/-- The multipart branch of `parseRequestParams` (server.go).
`fileParts` lists the distinct field names of `r.MultipartForm.File`
with the temp path their (first) file was spooled to by `SaveUpload`;
`valueParts` lists the distinct field names of `r.MultipartForm.Value`
with their first value; `jsonParse` models `json.Unmarshal` into
`map[string]interface` for the special non-file part named "params".
Files are written into the params map first; then each non-file value
is written unless its key is a schema-declared file field ("params"
members are merged under the same guard). -/
def parseRequestParams (input : Option Schema)
    (fileParts : List (String × String))
    (valueParts : List (String × String))
    (jsonParse : String → Option (List (String × JsonVal))) :
    List (String × JsonVal) :=
  let fileFields := getFileFields input
  let afterFiles := fileParts.foldl (fun ps fp => setKey ps fp.1 (.str fp.2)) []
  valueParts.foldl
    (fun ps kv =>
      if kv.1 = "params" then
        match jsonParse kv.2 with
        | some jsonParams =>
          jsonParams.foldl
            (fun ps2 m => if m.1 ∈ fileFields then ps2 else setKey ps2 m.1 m.2) ps
        | none => ps
      else if kv.1 ∈ fileFields then ps
      else setKey ps kv.1 (.str kv.2))
    afterFiles

end Server

namespace Registry

/-- The outcome of each fallible step of `Manager.Install`
(part_005): whether materialisation (symlink or clone-and-rename) put a
directory under the tools root, whether the manifest at that directory
parses, whether the parsed name is already in the catalogue, whether
environment creation succeeds, whether the created environment is fresh
(`IsNew`), and whether dependency installation succeeds. -/
structure InstallWorld where
  materializeOk : Bool
  manifestOk : Bool
  alreadyInstalled : Bool
  envOk : Bool
  envIsNew : Bool
  packagesOk : Bool

/-- What `Install` did: whether `os.RemoveAll(toolPath)` was executed on
the materialised directory, whether the catalogue gained the tool, and
the returned error if any. -/
structure InstallResult where
  dirRemoved : Bool
  addedToCatalog : Bool
  err : Option String

/-- `Manager.Install` (part_005), step by step.  On materialisation
failure nothing was created.  On manifest failure, duplicate name and
environment-creation failure the code calls `os.RemoveAll(toolPath)`
before returning.  On dependency-install failure (reached only when the
environment is fresh) the code returns the error without removing the
directory.  The catalogue is only written on full success. -/
def installModel (w : InstallWorld) : InstallResult :=
  if ¬ w.materializeOk then
    { dirRemoved := false, addedToCatalog := false, err := some "materialize failed" }
  else if ¬ w.manifestOk then
    { dirRemoved := true, addedToCatalog := false, err := some "invalid manifest" }
  else if w.alreadyInstalled then
    { dirRemoved := true, addedToCatalog := false, err := some "already installed" }
  else if ¬ w.envOk then
    { dirRemoved := true, addedToCatalog := false, err := some "failed to create environment" }
  else if w.envIsNew ∧ ¬ w.packagesOk then
    { dirRemoved := false, addedToCatalog := false, err := some "failed to install packages" }
  else
    { dirRemoved := false, addedToCatalog := true, err := none }

end Registry

namespace Exec

/-- The executor's mutable tables (executor.go), keyed by tool name:
`repls` is the eval/REPL process table, `queues` the framed/MessagePack
process table, `healthCancels` the cancellation tokens of running health
supervisors.  The process handles themselves are irrelevant to the
claims, so a table is modelled by its key set. -/
structure ExecState where
  repls : Finset String
  queues : Finset String
  healthCancels : Finset String

/-- What happened to child processes during a call. -/
inductive ProcEvent where
  | spawn
  | invoke (method : String)
  | teardown
  deriving DecidableEq

/-- The observable outcome of `Executor.Call`: the child-process events
it performed, the error if any, and the tool's lifecycle `Status` field
after the call (the call paths never assign it). -/
structure CallOutput where
  events : List ProcEvent
  err : Option String
  statusAfter : String

/-- Success or failure of the external operations a call may attempt:
module load from the entrypoint (framed transport only), child spawn,
eval bootstrap (`initializeService`), and the method invocation
itself. -/
structure CallFlags where
  moduleOk : Bool
  spawnOk : Bool
  initOk : Bool
  callOk : Bool

/-- The manifest data `Call` consults: name, `runtime.mode`,
`runtime.transport`, declared method names. -/
structure ToolMeta where
  name : String
  mode : String
  transport : String
  methods : List String

/-- `callOneshot` (executor.go, eval transport): spawn a REPL, bootstrap
the service, invoke, tear down (the deferred `repl.Close()` runs on
every path after a successful spawn). -/
def callOneshotEval (fl : CallFlags) (status : String) (method : String) : CallOutput :=
  if ¬ fl.spawnOk then
    { events := [], err := some "failed to create REPL", statusAfter := status }
  else if ¬ fl.initOk then
    { events := [.spawn, .teardown], err := some "failed to initialize service", statusAfter := status }
  else
    { events := [.spawn, .invoke method, .teardown],
      err := if fl.callOk then none else some "call failed",
      statusAfter := status }

/-- `callOneshotMsgpack` (executor.go): load the entrypoint module,
spawn a queue process, invoke with the 300s per-call timeout, tear down
(deferred `queue.Close()`). -/
def callOneshotMsgpack (fl : CallFlags) (status : String) (method : String) : CallOutput :=
  if ¬ fl.moduleOk then
    { events := [], err := some "failed to load entrypoint", statusAfter := status }
  else if ¬ fl.spawnOk then
    { events := [], err := some "failed to create queue process", statusAfter := status }
  else
    { events := [.spawn, .invoke method, .teardown],
      err := if fl.callOk then none else some "queue call failed",
      statusAfter := status }

/-- `callPersistent` (executor.go): look the tool up in the eval table;
fail with the not-running error when absent, otherwise invoke on the
shared child (no spawn, no teardown). -/
def callPersistentEval (st : ExecState) (name : String) (fl : CallFlags)
    (status : String) (method : String) : CallOutput :=
  if name ∈ st.repls then
    { events := [.invoke method],
      err := if fl.callOk then none else some "call failed",
      statusAfter := status }
  else
    { events := [],
      err := some ("tool " ++ name ++ " is not running, start it first"),
      statusAfter := status }

/-- `callPersistentMsgpack` (executor.go): same as `callPersistentEval`
but against the framed/queue table. -/
def callPersistentMsgpack (st : ExecState) (name : String) (fl : CallFlags)
    (status : String) (method : String) : CallOutput :=
  if name ∈ st.queues then
    { events := [.invoke method],
      err := if fl.callOk then none else some "queue call failed",
      statusAfter := status }
  else
    { events := [],
      err := some ("tool " ++ name ++ " is not running, start it first"),
      statusAfter := status }

/-- `Executor.Call` (executor.go): resolve the tool, check the method
against the manifest, ensure the environment, then dispatch on
(transport, mode); `envOk` models `EnsureEnvironment` succeeding. -/
def callModel (st : ExecState) (tool : ToolMeta) (status : String) (method : String)
    (envOk : Bool) (fl : CallFlags) : CallOutput :=
  if ¬ method ∈ tool.methods then
    { events := [], err := some ("method not found: " ++ method), statusAfter := status }
  else if ¬ envOk then
    { events := [], err := some "failed to ensure environment", statusAfter := status }
  else if tool.transport = "msgpack" then
    if tool.mode = "persistent" then callPersistentMsgpack st tool.name fl status method
    else callOneshotMsgpack fl status method
  else
    if tool.mode = "persistent" then callPersistentEval st tool.name fl status method
    else callOneshotEval fl status method

/-- `Executor.Start` (executor.go): refuse non-persistent tools, refuse
when the name is in either table, ensure the environment, then
`startMsgpack` or `startRepl`; on success the name is inserted into
exactly one table and, when the manifest has a health block, into the
cancel-token table. -/
def startModel (st : ExecState) (tool : ToolMeta) (hasHealth : Bool)
    (envOk : Bool) (fl : CallFlags) : ExecState × Option String :=
  if ¬ tool.mode = "persistent" then (st, some ("tool " ++ tool.name ++ " is not a persistent tool"))
  else if tool.name ∈ st.repls then (st, some ("tool " ++ tool.name ++ " is already running"))
  else if tool.name ∈ st.queues then (st, some ("tool " ++ tool.name ++ " is already running"))
  else if ¬ envOk then (st, some "failed to ensure environment")
  else if tool.transport = "msgpack" then
    if ¬ fl.moduleOk then (st, some "failed to load entrypoint")
    else if ¬ fl.spawnOk then (st, some "failed to create queue process")
    else
      ({ st with queues := insert tool.name st.queues,
                 healthCancels := if hasHealth then insert tool.name st.healthCancels
                                  else st.healthCancels }, none)
  else
    if ¬ fl.spawnOk then (st, some "failed to create REPL")
    else if ¬ fl.initOk then (st, some "failed to initialize service")
    else
      ({ st with repls := insert tool.name st.repls,
                 healthCancels := if hasHealth then insert tool.name st.healthCancels
                                  else st.healthCancels }, none)

/-- `Executor.Stop` (executor.go): cancel and drop the health token,
then remove the tool from the eval table if present, else from the
framed table if present, else fail with the not-running error. -/
def stopModel (st : ExecState) (toolFound : Bool) (name : String) : ExecState × Option String :=
  if ¬ toolFound then (st, some ("tool not found: " ++ name))
  else if name ∈ st.repls then
    ({ repls := st.repls.erase name, queues := st.queues,
       healthCancels := st.healthCancels.erase name }, none)
  else if name ∈ st.queues then
    ({ repls := st.repls, queues := st.queues.erase name,
       healthCancels := st.healthCancels.erase name }, none)
  else ({ st with healthCancels := st.healthCancels.erase name },
        some ("tool " ++ name ++ " is not running"))

/-- `Executor.Close` (executor.go): cancel every supervisor and close
every process; all three tables end empty. -/
def closeModel (_st : ExecState) : ExecState :=
  { repls := ∅, queues := ∅, healthCancels := ∅ }

/-- The single-quote character (code 39). -/
def squote : Char := Char.ofNat 39

/-- The double-quote character (code 34). -/
def dquote : Char := Char.ofNat 34

/-- The backslash character (code 92). -/
def bslash : Char := Char.ofNat 92

/-- The whitespace predicate of `strings.TrimSpace`, restricted to the
ASCII space characters (tab, newline, vertical tab, form feed, carriage
return, space); textual REPL replies contain no exotic Unicode
whitespace, so nothing here depends on the wider set. -/
def goSpace (c : Char) : Bool :=
  c = ' ' ∨ c = Char.ofNat 9 ∨ c = Char.ofNat 10 ∨ c = Char.ofNat 11
    ∨ c = Char.ofNat 12 ∨ c = Char.ofNat 13

/-- `strings.TrimSpace`: drop whitespace from both ends. -/
def trimGoSpace (cs : List Char) : List Char :=
  ((cs.dropWhile goSpace).reverse.dropWhile goSpace).reverse

/-- The quote-stripping step of `parseResponse` (executor.go): when the
text has length at least two and starts and ends with the same kind of
quote (single or double), drop that one outer pair. -/
def stripOuterQuotes (cs : List Char) : List Char :=
  if 2 ≤ cs.length ∧
      ((cs.head? = some squote ∧ cs.getLast? = some squote)
        ∨ (cs.head? = some dquote ∧ cs.getLast? = some dquote))
  then (cs.drop 1).dropLast
  else cs

/-- `strings.ReplaceAll(s, backslash-q, q)`: replace each
non-overlapping backslash-quote pair, left to right. -/
def unescapePair (q : Char) : List Char → List Char
  | [] => []
  | [c] => [c]
  | c1 :: c2 :: rest =>
    if c1 = bslash ∧ c2 = q then q :: unescapePair q rest
    else c1 :: unescapePair q (c2 :: rest)

/-- The textual clean-up of `parseResponse` (executor.go): trim
whitespace, strip one pair of outer quotes, unescape backslash-single
pairs, then backslash-double pairs. -/
def preprocessResult (result : List Char) : List Char :=
  unescapePair dquote (unescapePair squote (stripOuterQuotes (trimGoSpace result)))

/-- `CallError` (executor.go): absent JSON members decode to "". -/
structure CallError where
  type : String
  message : String
  traceback : String

/-- `CallResponse` (executor.go): the jb-service reply envelope; absent
members decode to the Go zero values. -/
structure CallResponse where
  ok : Bool
  result : JsonVal
  error : Option CallError
  done : Bool
  chunk : JsonVal

/-- `encoding/json` decoding of a bool struct field: absent or null
leaves the zero value `false`; a non-bool value is a decode error. -/
def asOptBool : Option JsonVal → Option Bool
  | none => some false
  | some .null => some false
  | some (.boolean b) => some b
  | _ => none

/-- `encoding/json` decoding of a string struct field: absent or null
leaves the zero value ""; a non-string value is a decode error. -/
def asOptString : Option JsonVal → Option String
  | none => some ""
  | some .null => some ""
  | some (.str s) => some s
  | _ => none

/-- `encoding/json` decoding of the `*CallError` field: null decodes to
a nil pointer, an object to a `CallError`, anything else fails. -/
def decodeCallError (v : JsonVal) : Option (Option CallError) :=
  match v with
  | .null => some none
  | .obj fs => do
    let t ← asOptString (jlookup fs "type")
    let m ← asOptString (jlookup fs "message")
    let tb ← asOptString (jlookup fs "traceback")
    some (some ⟨t, m, tb⟩)
  | _ => none

/-- `json.Unmarshal` into `CallResponse`: the document must be null
(zero-value envelope) or an object; unknown members are ignored,
wrongly-typed known members are a decode error, `result` and `chunk`
accept anything. -/
def decodeCallResponse (v : JsonVal) : Option CallResponse :=
  match v with
  | .null => some { ok := false, result := .null, error := none, done := false, chunk := .null }
  | .obj fs => do
    let okF ← asOptBool (jlookup fs "ok")
    let doneF ← asOptBool (jlookup fs "done")
    let errF ←
      match jlookup fs "error" with
      | none => some none
      | some ev => decodeCallError ev
    some { ok := okF, result := (jlookup fs "result").getD .null,
           error := errF, done := doneF, chunk := (jlookup fs "chunk").getD .null }
  | _ => none

/-- `parseResponse` (executor.go): clean the textual reply up, decode it
as a `CallResponse` (`parse` models the textual JSON parser of
`encoding/json`); on decode failure return the original raw text as the
result with no error; on `ok:false` fail with "type: message" plus the
traceback when present; on `ok:true` return `result`. -/
def parseResponse (parse : List Char → Option JsonVal) (result : List Char) :
    Except String JsonVal :=
  match (parse (preprocessResult result)).bind decodeCallResponse with
  | none => .ok (.str (String.mk result))
  | some resp =>
    if resp.ok then .ok resp.result
    else
      match resp.error with
      | some e =>
        .error (e.type ++ ": " ++ e.message
          ++ (if e.traceback = "" then "" else "\n" ++ e.traceback))
      | none => .error "call failed with unknown error"

end Exec

namespace FileStore

/-- A row of the `files` table (part_007): id is the primary key;
`expiresAt = 0` means permanent. -/
structure FileRow where
  id : String
  name : String
  size : Int
  sha256 : String
  createdAt : Int
  expiresAt : Int
  deriving DecidableEq

/-- The store's persistent state: the database rows and the set of blob
file names under `blobDir` (a blob is named by its row id). -/
structure StoreState where
  blobDir : String
  rows : List FileRow
  blobs : Finset String

/-- `deleteLocked` (part_007): `DELETE FROM files WHERE id = ?`; when no
row was affected return not-found without touching any blob, otherwise
remove the blob named `id` (a missing blob is tolerated). -/
def deleteLocked (st : StoreState) (id : String) : StoreState × Option String :=
  if st.rows.any (fun r => r.id = id) then
    ({ st with rows := st.rows.filter (fun r => ¬ r.id = id),
               blobs := st.blobs.erase id }, none)
  else (st, some ("file not found: " ++ id))

/-- The deletion loop at the end of `runGC`: delete each selected id in
order via `deleteLocked`, ignoring per-id errors. -/
def deleteAll (st : StoreState) (ids : List String) : StoreState :=
  ids.foldl (fun s i => (deleteLocked s i).1) st

/-- `runGC` (part_007) at time `now`: select
`id FROM files WHERE expires_at > 0 AND expires_at <= now`, then delete
each selected id (row first, then blob, inside `deleteLocked`). -/
def runGC (st : StoreState) (now : Int) : StoreState :=
  deleteAll st ((st.rows.filter (fun r => 0 < r.expiresAt ∧ r.expiresAt ≤ now)).map (·.id))

/-- `GetPath` (part_007): `SELECT 1 FROM files WHERE id = ?`; not-found
when no row matches, else the blob path `{blobDir}/{id}` — expiry is
never consulted. -/
def getPath (st : StoreState) (id : String) : Except String String :=
  if st.rows.any (fun r => r.id = id) then .ok (st.blobDir ++ "/" ++ id)
  else .error ("file not found: " ++ id)

/-- `Info` (part_007): select the row by id and return its metadata
together with the blob path — expiry is never consulted. -/
def infoQuery (st : StoreState) (id : String) : Except String (FileRow × String) :=
  match st.rows.find? (fun r => r.id = id) with
  | some r => .ok (r, st.blobDir ++ "/" ++ id)
  | none => .error ("file not found: " ++ id)

/-- Insertion step of the `ORDER BY created_at DESC` model. -/
def insertByCreatedDesc (r : FileRow) : List FileRow → List FileRow
  | [] => [r]
  | x :: xs => if x.createdAt ≤ r.createdAt then r :: x :: xs else x :: insertByCreatedDesc r xs

/-- The `ORDER BY created_at DESC` of `List` (part_007), as an insertion
sort. -/
def sortByCreatedDesc : List FileRow → List FileRow
  | [] => []
  | x :: xs => insertByCreatedDesc x (sortByCreatedDesc xs)

/-- `List` (part_007): all rows, or — by default — only rows with
`expires_at = 0 OR expires_at > now`; ordered by creation time
descending. -/
def listFiles (st : StoreState) (includeExpired : Bool) (now : Int) : List FileRow :=
  sortByCreatedDesc
    (if includeExpired then st.rows
     else st.rows.filter (fun r => r.expiresAt = 0 ∨ now < r.expiresAt))

end FileStore

/-! Theorems.  Each claim of the specification is settled by exactly one
theorem below (plus, where needed, a closed witness or counterexample);
lemmas carry the shared bookkeeping. -/

/-- C1: for a persistent tool started with a health block, a response is
classified healthy exactly when it is an object whose `status` field is
the string "ok" or it is the literal string "ok"; an unhealthy tick
increments the consecutive-failure counter and sets the health status to
"unhealthy" exactly once the counter has reached the threshold; a
healthy tick resets the counter to zero and sets the status to
"healthy". -/
theorem health_classification_and_transitions :
    (∀ v : JsonVal,
      Exec.checkHealthResult v = true ↔
        ((∃ fields, v = JsonVal.obj fields
            ∧ jlookup fields "status" = some (JsonVal.str "ok"))
          ∨ v = JsonVal.str "ok"))
    ∧ (∀ (threshold : Int) (t : Exec.ToolHealth) (resp : Option JsonVal),
        Exec.tickHealthy resp = false →
          (Exec.healthTick threshold t resp).healthFailures = t.healthFailures + 1
          ∧ (threshold ≤ t.healthFailures + 1 →
              (Exec.healthTick threshold t resp).healthStatus = "unhealthy")
          ∧ (¬ threshold ≤ t.healthFailures + 1 →
              (Exec.healthTick threshold t resp).healthStatus = t.healthStatus))
    ∧ (∀ (threshold : Int) (t : Exec.ToolHealth) (resp : Option JsonVal),
        Exec.tickHealthy resp = true →
          (Exec.healthTick threshold t resp).healthFailures = 0
          ∧ (Exec.healthTick threshold t resp).healthStatus = "healthy") := by
  refine ⟨?_, ?_, ?_⟩
  · intro v
    cases v with
    | obj fields =>
      rcases hl : jlookup fields "status" with _ | val
      · simp [Exec.checkHealthResult, hl]
      · cases val <;> simp [Exec.checkHealthResult, hl]
    | null => simp [Exec.checkHealthResult]
    | boolean b => simp [Exec.checkHealthResult]
    | num q => simp [Exec.checkHealthResult]
    | str s => simp [Exec.checkHealthResult]
    | arr xs => simp [Exec.checkHealthResult]
  · intro threshold t resp h
    unfold Exec.healthTick
    rw [h]
    simp only [Bool.false_eq_true, if_false]
    refine ⟨?_, ?_, ?_⟩ <;> split_ifs with hth <;> simp_all
  · intro threshold t resp h
    unfold Exec.healthTick
    rw [h]
    simp

/-- Witness for C1 at concrete inputs: with threshold 3 and two prior
failures, an unhealthy tick moves the counter to 3 and the status to
"unhealthy"; a healthy tick from there resets to ("healthy", 0). -/
theorem health_classification_and_transitions_witness :
    (Exec.healthTick 3 ⟨"unknown", 2⟩ none).healthFailures = 3
    ∧ (Exec.healthTick 3 ⟨"unknown", 2⟩ none).healthStatus = "unhealthy"
    ∧ (Exec.healthTick 3 ⟨"unhealthy", 5⟩
        (some (JsonVal.obj [("status", JsonVal.str "ok")]))).healthStatus = "healthy"
    ∧ Exec.checkHealthResult (JsonVal.str "ok") = true := by
  have h := health_classification_and_transitions
  refine ⟨?_, ?_, ?_, ?_⟩
  · rw [(h.2.1 3 ⟨"unknown", 2⟩ none rfl).1]
    decide
  · exact (h.2.1 3 ⟨"unknown", 2⟩ none rfl).2.1 (by norm_num)
  · exact (h.2.2 3 ⟨"unhealthy", 5⟩
      (some (JsonVal.obj [("status", JsonVal.str "ok")])) rfl).2
  · exact (h.1 (JsonVal.str "ok")).mpr (Or.inr rfl)

/-- C3: `Install` removes the materialised directory on the
manifest-parse, duplicate-name and environment-creation failure paths,
but on the dependency-install failure path it returns the error with the
materialised directory still in place — contradicting the spec's "on any
failure after materialisation, remove the materialised directory before
returning"; the catalogue is unchanged on every failure path. -/
theorem install_package_failure_keeps_directory :
    (Registry.installModel
        { materializeOk := true, manifestOk := true, alreadyInstalled := false,
          envOk := true, envIsNew := true, packagesOk := false }).err
        = some "failed to install packages"
    ∧ (Registry.installModel
        { materializeOk := true, manifestOk := true, alreadyInstalled := false,
          envOk := true, envIsNew := true, packagesOk := false }).dirRemoved = false
    ∧ (Registry.installModel
        { materializeOk := true, manifestOk := true, alreadyInstalled := false,
          envOk := true, envIsNew := true, packagesOk := false }).addedToCatalog = false
    ∧ (∀ w : Registry.InstallWorld, w.manifestOk = false → w.materializeOk = true →
        (Registry.installModel w).dirRemoved = true)
    ∧ (∀ w : Registry.InstallWorld, w.envOk = false → w.materializeOk = true →
        w.manifestOk = true → w.alreadyInstalled = false →
        (Registry.installModel w).dirRemoved = true) := by
  refine ⟨rfl, rfl, rfl, ?_, ?_⟩
  · intro w h1 h2
    simp [Registry.installModel, h1, h2]
  · intro w h1 h2 h3 h4
    simp [Registry.installModel, h1, h2, h3, h4]

/-- No string equals `"Bearer " ++ t`  while empty. -/
theorem bearer_prefixed_ne_empty (t : String) : ¬ ("" = "Bearer " ++ t) := by
  intro h
  have hlen := congrArg String.length h
  rw [String.length_append] at hlen
  have h0 : ("" : String).length = 0 := rfl
  have h7 : ("Bearer " : String).length = 7 := rfl
  omega

/-- C4 counterexample: with credential "T" configured, a request whose
Authorization header is the bare token "T" (no Bearer scheme, empty
token query parameter) is processed by the code, while the claimed rule
rejects it. -/
theorem auth_bare_token_header_counterexample :
    Server.authAllows "T" "T" "" = true
    ∧ Server.authAllowsClaimed "T" "T" "" = false := by
  constructor <;> decide

/-- C4 amended: when a bearer credential is configured a request is
processed exactly when its effective token — the Authorization header
when non-empty, else the `token` query parameter — equals
`"Bearer " ++ credential` or the bare credential; in particular a
request with a non-matching Authorization header is rejected even with a
correct query parameter, and a request with neither is rejected. -/
theorem auth_effective_token_rule (authToken header queryToken : String)
    (hTok : ¬ authToken = "") :
    (Server.authAllows authToken header queryToken = true ↔
      ((if header = "" then queryToken else header) = "Bearer " ++ authToken
        ∨ (if header = "" then queryToken else header) = authToken))
    ∧ (¬ header = "" → ¬ header = "Bearer " ++ authToken → ¬ header = authToken →
        Server.authAllows authToken header queryToken = false)
    ∧ (header = "" → queryToken = "" →
        Server.authAllows authToken header queryToken = false) := by
  unfold Server.authAllows
  rw [if_neg hTok]
  refine ⟨?_, ?_, ?_⟩
  · by_cases h2 : ((if header = "" then queryToken else header) = "Bearer " ++ authToken
        ∨ (if header = "" then queryToken else header) = authToken)
    · rw [if_pos h2]; simp [h2]
    · rw [if_neg h2]; simp [h2]
  · intro h1 h2 h3
    have hne : ¬ ((if header = "" then queryToken else header) = "Bearer " ++ authToken
        ∨ (if header = "" then queryToken else header) = authToken) := by
      rw [if_neg h1]
      exact fun hor => hor.elim h2 h3
    rw [if_neg hne]
  · intro h1 h2
    subst h1
    subst h2
    have hne : ¬ ((if ("" : String) = "" then ("" : String) else "") = "Bearer " ++ authToken
        ∨ (if ("" : String) = "" then ("" : String) else "") = authToken) := by
      rintro (h | h)
      · exact bearer_prefixed_ne_empty authToken (by simpa using h)
      · exact hTok (by simpa using h.symm)
    rw [if_neg hne]

/-- Witness for C4's amended rule: credential "T", header "Bearer T" is
processed; header "X" with correct query "T" is rejected; no header and
no query is rejected. -/
theorem auth_effective_token_rule_witness :
    Server.authAllows "T" "Bearer T" "" = true
    ∧ Server.authAllows "T" "X" "T" = false
    ∧ Server.authAllows "T" "" "" = false := by
  refine ⟨?_, ?_, ?_⟩
  · exact (auth_effective_token_rule "T" "Bearer T" "" (by decide)).1.mpr
      (Or.inl (by decide))
  · exact (auth_effective_token_rule "T" "X" "T" (by decide)).2.1
      (by decide) (by decide) (by decide)
  · exact (auth_effective_token_rule "T" "" "" (by decide)).2.2 rfl rfl

/-- C6: a persistent-mode tool with no entry in the process table of its
transport (never Started, or Stopped) rejects a Call with the
not-running error and performs no method invocation — on the framed
(msgpack/queue) transport and on the eval (REPL) transport alike. -/
theorem persistent_call_requires_running
    (st : Exec.ExecState) (tool : Exec.ToolMeta) (status method : String)
    (fl : Exec.CallFlags)
    (hmode : tool.mode = "persistent") (hmethod : method ∈ tool.methods) :
    (tool.transport = "msgpack" → ¬ tool.name ∈ st.queues →
      (Exec.callModel st tool status method true fl).err
          = some ("tool " ++ tool.name ++ " is not running, start it first")
        ∧ (Exec.callModel st tool status method true fl).events = [])
    ∧ (¬ tool.transport = "msgpack" → ¬ tool.name ∈ st.repls →
      (Exec.callModel st tool status method true fl).err
          = some ("tool " ++ tool.name ++ " is not running, start it first")
        ∧ (Exec.callModel st tool status method true fl).events = []) := by
  constructor
  · intro ht hq
    simp [Exec.callModel, Exec.callPersistentMsgpack, hmode, ht, hmethod, hq]
  · intro ht hr
    simp [Exec.callModel, Exec.callPersistentEval, hmode, ht, hmethod, hr]

/-- Witness for C6: a persistent tool "M" against the empty process
tables, once declaring the framed transport and once the eval
transport. -/
theorem persistent_call_requires_running_witness :
    (Exec.callModel ⟨∅, ∅, ∅⟩ ⟨"M", "persistent", "msgpack", ["go"]⟩ "running" "go"
        true ⟨true, true, true, true⟩).err
      = some ("tool " ++ "M" ++ " is not running, start it first")
    ∧ (Exec.callModel ⟨∅, ∅, ∅⟩ ⟨"M", "persistent", "repl", ["go"]⟩ "running" "go"
        true ⟨true, true, true, true⟩).events = [] := by
  constructor
  · exact ((persistent_call_requires_running ⟨∅, ∅, ∅⟩
      ⟨"M", "persistent", "msgpack", ["go"]⟩ "running" "go" ⟨true, true, true, true⟩
      rfl (by simp)).1 rfl (by simp)).1
  · exact ((persistent_call_requires_running ⟨∅, ∅, ∅⟩
      ⟨"M", "persistent", "repl", ["go"]⟩ "running" "go" ⟨true, true, true, true⟩
      rfl (by simp)).2 (by decide) (by simp)).2

/-- C7: if the eval and framed tables are disjoint, they stay disjoint
across `Start` (which refuses a name present in either table and inserts
into exactly one), `Stop` and `Close`; moreover a successful `Stop`
leaves the tool absent from both tables. -/
theorem process_tables_exclusive
    (st : Exec.ExecState) (tool : Exec.ToolMeta) (hasHealth envOk : Bool)
    (fl : Exec.CallFlags) (toolFound : Bool) (name : String)
    (hdisj : st.repls ∩ st.queues = ∅) :
    ((Exec.startModel st tool hasHealth envOk fl).1.repls
        ∩ (Exec.startModel st tool hasHealth envOk fl).1.queues = ∅)
    ∧ ((Exec.stopModel st toolFound name).1.repls
        ∩ (Exec.stopModel st toolFound name).1.queues = ∅)
    ∧ ((Exec.stopModel st toolFound name).2 = none →
        ¬ name ∈ (Exec.stopModel st toolFound name).1.repls
          ∧ ¬ name ∈ (Exec.stopModel st toolFound name).1.queues)
    ∧ ((Exec.closeModel st).repls ∩ (Exec.closeModel st).queues = ∅) := by
  have hd : ∀ x, x ∈ st.repls → x ∈ st.queues → False := by
    intro x hx hq
    have hmem : x ∈ st.repls ∩ st.queues := Finset.mem_inter.mpr ⟨hx, hq⟩
    rw [hdisj] at hmem
    exact absurd hmem (Finset.not_mem_empty x)
  refine ⟨?_, ?_, ?_, ?_⟩
  · unfold Exec.startModel
    split_ifs with h1 h2 h3 h4 h5 h6 h7 h8 <;>
    first
      | exact hdisj
      | (show st.repls ∩ insert tool.name st.queues = ∅
         rw [Finset.inter_insert_of_not_mem h2]
         exact hdisj)
      | (show insert tool.name st.repls ∩ st.queues = ∅
         rw [Finset.insert_inter_of_not_mem h3]
         exact hdisj)
  · unfold Exec.stopModel
    split_ifs with h1 h2 h3 <;>
    first
      | exact hdisj
      | (show st.repls.erase name ∩ st.queues = ∅
         rw [← Finset.subset_empty, ← hdisj]
         exact Finset.inter_subset_inter (Finset.erase_subset name st.repls)
           (Finset.Subset.refl st.queues))
      | (show st.repls ∩ st.queues.erase name = ∅
         rw [← Finset.subset_empty, ← hdisj]
         exact Finset.inter_subset_inter (Finset.Subset.refl st.repls)
           (Finset.erase_subset name st.queues))
  · unfold Exec.stopModel
    split_ifs with h1 h2 h3
    · intro _
      exact ⟨Finset.not_mem_erase name st.repls, fun hq => hd name h2 hq⟩
    · intro _
      exact ⟨h2, Finset.not_mem_erase name st.queues⟩
    · intro hnone; exact absurd hnone (by simp)
    · intro hnone; exact absurd hnone (by simp)
  · simp [Exec.closeModel]

/-- Witness for C7: starting the persistent tool "M" (framed, healthy
environment) from the empty, trivially disjoint tables keeps the tables
disjoint, and stopping it afterwards removes it from both. -/
theorem process_tables_exclusive_witness :
    ((Exec.startModel ⟨∅, ∅, ∅⟩ ⟨"M", "persistent", "msgpack", ["go"]⟩ true true
        ⟨true, true, true, true⟩).1.repls
      ∩ (Exec.startModel ⟨∅, ∅, ∅⟩ ⟨"M", "persistent", "msgpack", ["go"]⟩ true true
        ⟨true, true, true, true⟩).1.queues = ∅)
    ∧ (¬ "M" ∈ (Exec.stopModel ⟨∅, {"M"}, {"M"}⟩ true "M").1.repls
        ∧ ¬ "M" ∈ (Exec.stopModel ⟨∅, {"M"}, {"M"}⟩ true "M").1.queues) := by
  constructor
  · exact (process_tables_exclusive ⟨∅, ∅, ∅⟩ ⟨"M", "persistent", "msgpack", ["go"]⟩
      true true ⟨true, true, true, true⟩ true "M" (by decide)).1
  · exact (process_tables_exclusive ⟨∅, {"M"}, {"M"}⟩
      ⟨"M", "persistent", "msgpack", ["go"]⟩ true true ⟨true, true, true, true⟩
      true "M" (by decide)).2.2.1 (by decide)

/-- C8: a Call on an oneshot-mode tool leaves the tool's lifecycle
status unchanged (in particular a "stopped" tool still reads "stopped"
afterwards), and a completed call consists of exactly spawn, one
invocation, teardown — on either transport. -/
theorem oneshot_call_preserves_status
    (st : Exec.ExecState) (tool : Exec.ToolMeta) (status method : String)
    (envOk : Bool) (fl : Exec.CallFlags)
    (hmode : tool.mode = "oneshot") :
    (Exec.callModel st tool status method envOk fl).statusAfter = status
    ∧ ((Exec.callModel st tool status method envOk fl).err = none →
        (Exec.callModel st tool status method envOk fl).events
          = [Exec.ProcEvent.spawn, Exec.ProcEvent.invoke method,
             Exec.ProcEvent.teardown]) := by
  have hpers : ¬ tool.mode = "persistent" := by rw [hmode]; decide
  constructor
  · unfold Exec.callModel Exec.callPersistentEval Exec.callPersistentMsgpack
      Exec.callOneshotEval Exec.callOneshotMsgpack
    split_ifs <;> rfl
  · unfold Exec.callModel Exec.callOneshotEval Exec.callOneshotMsgpack
    simp only [hpers, if_false]
    split_ifs <;> intro h <;> simp_all

/-- Witness for C8: the stopped oneshot tool "calc" called over the eval
transport with every step succeeding: status still "stopped", full
spawn/invoke/teardown trace. -/
theorem oneshot_call_preserves_status_witness :
    (Exec.callModel ⟨∅, ∅, ∅⟩ ⟨"calc", "oneshot", "repl", ["add"]⟩ "stopped" "add"
        true ⟨true, true, true, true⟩).statusAfter = "stopped"
    ∧ (Exec.callModel ⟨∅, ∅, ∅⟩ ⟨"calc", "oneshot", "repl", ["add"]⟩ "stopped" "add"
        true ⟨true, true, true, true⟩).events
      = [Exec.ProcEvent.spawn, Exec.ProcEvent.invoke "add",
         Exec.ProcEvent.teardown] := by
  have h := oneshot_call_preserves_status ⟨∅, ∅, ∅⟩ ⟨"calc", "oneshot", "repl", ["add"]⟩
    "stopped" "add" true ⟨true, true, true, true⟩ rfl
  exact ⟨h.1, h.2 rfl⟩

/-- `deleteLocked` removes exactly the rows carrying the given id. -/
theorem deleteLocked_rows (st : FileStore.StoreState) (id : String) :
    (FileStore.deleteLocked st id).1.rows = st.rows.filter (fun r => ¬ r.id = id) := by
  unfold FileStore.deleteLocked
  split_ifs with h
  · rfl
  · refine (List.filter_eq_self.mpr ?_).symm
    intro a ha
    simp only [decide_eq_true_eq]
    intro heq
    exact h (List.any_eq_true.mpr ⟨a, ha, by simp [heq]⟩)

/-- `deleteLocked` never adds a blob. -/
theorem deleteLocked_blobs_subset (st : FileStore.StoreState) (id : String) :
    (FileStore.deleteLocked st id).1.blobs ⊆ st.blobs := by
  unfold FileStore.deleteLocked
  split_ifs with h
  · exact Finset.erase_subset id st.blobs
  · exact Finset.Subset.refl st.blobs

/-- Deleting a list of ids removes exactly the rows whose id is in the
list. -/
theorem deleteAll_rows (ids : List String) (st : FileStore.StoreState) :
    (FileStore.deleteAll st ids).rows = st.rows.filter (fun r => ¬ r.id ∈ ids) := by
  induction ids generalizing st with
  | nil =>
    show st.rows = st.rows.filter (fun r => ¬ r.id ∈ ([] : List String))
    simp
  | cons a rest ih =>
    show (FileStore.deleteAll (FileStore.deleteLocked st a).1 rest).rows = _
    rw [ih, deleteLocked_rows, List.filter_filter]
    apply List.filter_congr
    intro r _
    by_cases h1 : r.id = a <;> by_cases h2 : r.id ∈ rest <;> simp [h1, h2]

/-- The deletion loop never adds a blob. -/
theorem deleteAll_blobs_subset (ids : List String) (st : FileStore.StoreState) :
    (FileStore.deleteAll st ids).blobs ⊆ st.blobs := by
  induction ids generalizing st with
  | nil => exact Finset.Subset.refl _
  | cons a rest ih =>
    exact (ih (FileStore.deleteLocked st a).1).trans (deleteLocked_blobs_subset st a)

/-- After the deletion loop, the blob of any listed id that had a row is
gone. -/
theorem deleteAll_blob_removed (ids : List String) (st : FileStore.StoreState)
    (id : String) (hin : id ∈ ids) (hrow : ∃ r, r ∈ st.rows ∧ r.id = id) :
    ¬ id ∈ (FileStore.deleteAll st ids).blobs := by
  induction ids generalizing st with
  | nil => cases hin
  | cons a rest ih =>
    show ¬ id ∈ (FileStore.deleteAll (FileStore.deleteLocked st a).1 rest).blobs
    by_cases hida : id = a
    · subst hida
      have hany : st.rows.any (fun r => r.id = id) = true := by
        rcases hrow with ⟨r, hr, hrid⟩
        exact List.any_eq_true.mpr ⟨r, hr, by simp [hrid]⟩
      have hblobs : (FileStore.deleteLocked st id).1.blobs = st.blobs.erase id := by
        unfold FileStore.deleteLocked
        rw [if_pos hany]
      intro hmem2
      have h2 := deleteAll_blobs_subset rest (FileStore.deleteLocked st id).1 hmem2
      rw [hblobs] at h2
      exact absurd h2 (Finset.not_mem_erase id st.blobs)
    · have hmem : id ∈ rest := by
        rcases List.mem_cons.mp hin with h | h
        · exact absurd h hida
        · exact h
      apply ih _ hmem
      rcases hrow with ⟨r, hr, hrid⟩
      refine ⟨r, ?_, hrid⟩
      rw [deleteLocked_rows]
      exact List.mem_filter.mpr ⟨hr, by simp [hrid, hida]⟩

/-- C9: after a GC pass at time `now` over a store whose row ids are
unique (the `files` table's primary key), the surviving rows are exactly
those not satisfying `0 < expires_at ≤ now` — so no expired row remains
and no other row is touched — and the blob of every expired row has been
removed. -/
theorem gc_removes_exactly_expired (st : FileStore.StoreState) (now : Int)
    (hkeys : (st.rows.map FileStore.FileRow.id).Nodup) :
    (FileStore.runGC st now).rows
        = st.rows.filter (fun r => ¬ (0 < r.expiresAt ∧ r.expiresAt ≤ now))
    ∧ ∀ r, r ∈ st.rows → 0 < r.expiresAt → r.expiresAt ≤ now →
        ¬ r.id ∈ (FileStore.runGC st now).blobs := by
  constructor
  · show (FileStore.deleteAll st
        ((st.rows.filter (fun r => 0 < r.expiresAt ∧ r.expiresAt ≤ now)).map (·.id))).rows = _
    rw [deleteAll_rows]
    apply List.filter_congr
    intro r hr
    have hiff : r.id ∈ (st.rows.filter
          (fun r => 0 < r.expiresAt ∧ r.expiresAt ≤ now)).map (·.id)
        ↔ (0 < r.expiresAt ∧ r.expiresAt ≤ now) := by
      constructor
      · intro hid
        rcases List.mem_map.mp hid with ⟨r2, hr2, hid2⟩
        have hr2mem := (List.mem_filter.mp hr2).1
        have hpred := (List.mem_filter.mp hr2).2
        have heq : r2 = r :=
          List.inj_on_of_nodup_map hkeys hr2mem hr hid2
        rw [heq] at hpred
        simpa using hpred
      · intro hpred
        exact List.mem_map.mpr ⟨r, List.mem_filter.mpr ⟨hr, by simpa using hpred⟩, rfl⟩
    exact decide_eq_decide.mpr (not_congr hiff)
  · intro r hr h1 h2
    apply deleteAll_blob_removed
    · exact List.mem_map.mpr ⟨r, List.mem_filter.mpr ⟨hr, by simp [h1, h2]⟩, rfl⟩
    · exact ⟨r, hr, rfl⟩

/-- Witness for C9: a store with an expired row ("a", expires at 5) and
a permanent row ("b"); GC at time 10 leaves only "b"'s row and removes
"a"'s blob. -/
theorem gc_removes_exactly_expired_witness :
    (FileStore.runGC
        ⟨"blobs", [⟨"a", "f1", 10, "h1", 100, 5⟩, ⟨"b", "f2", 20, "h2", 200, 0⟩],
          {"a", "b"}⟩ 10).rows = [⟨"b", "f2", 20, "h2", 200, 0⟩]
    ∧ ¬ "a" ∈ (FileStore.runGC
        ⟨"blobs", [⟨"a", "f1", 10, "h1", 100, 5⟩, ⟨"b", "f2", 20, "h2", 200, 0⟩],
          {"a", "b"}⟩ 10).blobs := by
  have h := gc_removes_exactly_expired
    ⟨"blobs", [⟨"a", "f1", 10, "h1", 100, 5⟩, ⟨"b", "f2", 20, "h2", 200, 0⟩],
      {"a", "b"}⟩ 10 (by decide)
  constructor
  · rw [h.1]; decide
  · exact h.2 ⟨"a", "f1", 10, "h1", 100, 5⟩ (by decide) (by decide) (by decide)

/-- Membership is preserved by the insertion step of the ordering. -/
theorem mem_insertByCreatedDesc (r x : FileStore.FileRow) (l : List FileStore.FileRow) :
    x ∈ FileStore.insertByCreatedDesc r l ↔ x = r ∨ x ∈ l := by
  induction l with
  | nil => simp [FileStore.insertByCreatedDesc]
  | cons a as ih =>
    unfold FileStore.insertByCreatedDesc
    split_ifs with h
    · simp [List.mem_cons]
    · simp only [List.mem_cons, ih]
      tauto

/-- Ordering by creation time does not change which rows are listed. -/
theorem mem_sortByCreatedDesc (x : FileStore.FileRow) (l : List FileStore.FileRow) :
    x ∈ FileStore.sortByCreatedDesc l ↔ x ∈ l := by
  induction l with
  | nil => simp [FileStore.sortByCreatedDesc]
  | cons a as ih =>
    simp only [FileStore.sortByCreatedDesc, mem_insertByCreatedDesc, ih, List.mem_cons]

/-- C10: a row that has expired but has not been removed yet is still
served: `Info` returns its metadata and blob path, `GetPath` returns its
blob path, neither fails; only `List` in its default (exclude-expired)
mode omits it.  Nothing in the conclusion of `Info`/`GetPath` depends on
`expires_at` or on the clock. -/
theorem expired_row_still_readable (st : FileStore.StoreState)
    (r : FileStore.FileRow) (now : Int)
    (hfind : st.rows.find? (fun x => x.id = r.id) = some r) :
    FileStore.infoQuery st r.id = Except.ok (r, st.blobDir ++ "/" ++ r.id)
    ∧ FileStore.getPath st r.id = Except.ok (st.blobDir ++ "/" ++ r.id)
    ∧ (0 < r.expiresAt → r.expiresAt ≤ now →
        ¬ r ∈ FileStore.listFiles st false now) := by
  have hmem : r ∈ st.rows := List.mem_of_find?_eq_some hfind
  refine ⟨?_, ?_, ?_⟩
  · unfold FileStore.infoQuery
    rw [hfind]
  · have hany : st.rows.any (fun x => x.id = r.id) = true :=
      List.any_eq_true.mpr ⟨r, hmem, by simp⟩
    unfold FileStore.getPath
    rw [if_pos hany]
  · intro h1 h2 hmemL
    unfold FileStore.listFiles at hmemL
    rw [mem_sortByCreatedDesc] at hmemL
    simp only [Bool.false_eq_true, if_false] at hmemL
    have hp := (List.mem_filter.mp hmemL).2
    simp only [decide_eq_true_eq] at hp
    rcases hp with hp | hp
    · omega
    · omega

/-- Witness for C10: row "x" expired at 5, queried at time 10: Info and
GetPath still answer, the default List omits it. -/
theorem expired_row_still_readable_witness :
    FileStore.infoQuery ⟨"blobs", [⟨"x", "f", 1, "h", 50, 5⟩], {"x"}⟩ "x"
        = Except.ok (⟨"x", "f", 1, "h", 50, 5⟩, "blobs" ++ "/" ++ "x")
    ∧ FileStore.getPath ⟨"blobs", [⟨"x", "f", 1, "h", 50, 5⟩], {"x"}⟩ "x"
        = Except.ok ("blobs" ++ "/" ++ "x")
    ∧ ¬ (⟨"x", "f", 1, "h", 50, 5⟩ : FileStore.FileRow)
        ∈ FileStore.listFiles ⟨"blobs", [⟨"x", "f", 1, "h", 50, 5⟩], {"x"}⟩ false 10 := by
  have h := expired_row_still_readable ⟨"blobs", [⟨"x", "f", 1, "h", 50, 5⟩], {"x"}⟩
    ⟨"x", "f", 1, "h", 50, 5⟩ 10 rfl
  exact ⟨h.1, h.2.1, h.2.2 (by decide) (by decide)⟩

/-- Writing a key then reading it back gives the written value. -/
theorem jlookup_setKey_self (ps : List (String × JsonVal)) (k : String) (v : JsonVal) :
    jlookup (Server.setKey ps k v) k = some v := by
  induction ps with
  | nil => simp [Server.setKey, jlookup]
  | cons p rest ih =>
    obtain ⟨k0, v0⟩ := p
    show jlookup (if k0 = k then (k, v) :: rest else (k0, v0) :: Server.setKey rest k v) k
      = some v
    split_ifs with h
    · simp [jlookup]
    · simp [jlookup, h, ih]

/-- Writing one key leaves every other key's binding unchanged. -/
theorem jlookup_setKey_ne (ps : List (String × JsonVal)) (k0 k : String) (v : JsonVal)
    (h : ¬ k0 = k) : jlookup (Server.setKey ps k0 v) k = jlookup ps k := by
  induction ps with
  | nil => simp [Server.setKey, jlookup, h]
  | cons p rest ih =>
    obtain ⟨k1, v1⟩ := p
    show jlookup (if k1 = k0 then (k0, v) :: rest else (k1, v1) :: Server.setKey rest k0 v) k
      = jlookup ((k1, v1) :: rest) k
    split_ifs with h1
    · subst h1
      simp [jlookup, h]
    · by_cases h2 : k1 = k <;> simp [jlookup, h2, ih]

/-- The file-spooling loop does not touch keys that name no file part. -/
theorem jlookup_filePhase_ne (l : List (String × String)) (ps : List (String × JsonVal))
    (k : String) (h : ∀ e ∈ l, ¬ e.1 = k) :
    jlookup (l.foldl (fun ps fp => Server.setKey ps fp.1 (.str fp.2)) ps) k
      = jlookup ps k := by
  induction l generalizing ps with
  | nil => rfl
  | cons e rest ih =>
    show jlookup (rest.foldl _ (Server.setKey ps e.1 (.str e.2))) k = _
    rw [ih _ (fun e2 he2 => h e2 (List.mem_cons_of_mem e he2))]
    exact jlookup_setKey_ne ps e.1 k _ (h e (List.mem_cons_self e rest))

/-- After the file-spooling loop, a field uploaded as a file is bound to
its spooled path (field names of `MultipartForm.File` are unique). -/
theorem jlookup_filePhase_mem (l : List (String × String)) (ps : List (String × JsonVal))
    (k p : String) (hnd : (l.map Prod.fst).Nodup) (hm : (k, p) ∈ l) :
    jlookup (l.foldl (fun ps fp => Server.setKey ps fp.1 (.str fp.2)) ps) k
      = some (JsonVal.str p) := by
  induction l generalizing ps with
  | nil => cases hm
  | cons e rest ih =>
    obtain ⟨k0, p0⟩ := e
    show jlookup (rest.foldl _ (Server.setKey ps k0 (.str p0))) k = _
    rcases List.mem_cons.mp hm with heq | hmem
    · cases heq
      have hrest : ∀ e2 ∈ rest, ¬ e2.1 = k := by
        intro e2 he2 heq2
        exact (List.nodup_cons.mp hnd).1 (List.mem_map.mpr ⟨e2, he2, heq2⟩)
      rw [jlookup_filePhase_ne rest _ k hrest]
      exact jlookup_setKey_self ps k (.str p)
    · exact ih (Server.setKey ps k0 (.str p0)) (List.nodup_cons.mp hnd).2 hmem

/-- The merge of the JSON "params" part never writes a schema-declared
file field. -/
theorem jlookup_jsonMerge (jps ps : List (String × JsonVal)) (ff : List String)
    (k : String) (hk : k ∈ ff) :
    jlookup (jps.foldl
        (fun ps2 m => if m.1 ∈ ff then ps2 else Server.setKey ps2 m.1 m.2) ps) k
      = jlookup ps k := by
  induction jps generalizing ps with
  | nil => rfl
  | cons m rest ih =>
    show jlookup (rest.foldl _ (if m.1 ∈ ff then ps else Server.setKey ps m.1 m.2)) k = _
    rw [ih]
    split_ifs with h
    · rfl
    · exact jlookup_setKey_ne ps m.1 k m.2 (fun heq => h (by rw [heq]; exact hk))

/-- The whole non-file value loop never writes a schema-declared file
field. -/
theorem jlookup_valuePhase (vps : List (String × String)) (ps : List (String × JsonVal))
    (ff : List String) (jsonParse : String → Option (List (String × JsonVal)))
    (k : String) (hk : k ∈ ff) :
    jlookup (vps.foldl
        (fun ps kv =>
          if kv.1 = "params" then
            match jsonParse kv.2 with
            | some jsonParams =>
              jsonParams.foldl
                (fun ps2 m => if m.1 ∈ ff then ps2 else Server.setKey ps2 m.1 m.2) ps
            | none => ps
          else if kv.1 ∈ ff then ps
          else Server.setKey ps kv.1 (.str kv.2)) ps) k
      = jlookup ps k := by
  induction vps generalizing ps with
  | nil => rfl
  | cons kv rest ih =>
    show jlookup (rest.foldl _ _) k = _
    rw [ih]
    show jlookup
        (if kv.1 = "params" then
          match jsonParse kv.2 with
          | some jsonParams =>
            jsonParams.foldl
              (fun ps2 m => if m.1 ∈ ff then ps2 else Server.setKey ps2 m.1 m.2) ps
          | none => ps
        else if kv.1 ∈ ff then ps
        else Server.setKey ps kv.1 (.str kv.2)) k = jlookup ps k
    by_cases h1 : kv.1 = "params"
    · rw [if_pos h1]
      rcases hp : jsonParse kv.2 with _ | jps
      · simp [hp]
      · simp only [hp]
        exact jlookup_jsonMerge jps ps ff k hk
    · rw [if_neg h1]
      by_cases h2 : kv.1 ∈ ff
      · rw [if_pos h2]
      · rw [if_neg h2]
        exact jlookup_setKey_ne ps kv.1 k _ (fun heq => h2 (by rw [heq]; exact hk))

/-- C2 counterexample: a field "x" that is not declared `type: file` in
the input schema, uploaded both as a file (spooled to /tmp/upload1) and
as a non-file value "v": the resulting params map binds "x" to "v" — the
non-file value, not the spooled path, wins. -/
theorem multipart_nonschema_file_overwritten :
    Server.parseRequestParams none [("x", "/tmp/upload1")] [("x", "v")] (fun _ => none)
      = [("x", JsonVal.str "v")]
    ∧ ("v" : String) ≠ "/tmp/upload1" := by
  constructor
  · rfl
  · decide

/-- C2 amended: the file part wins only for fields the method's input
schema declares with `type: file` — for such a field, uploaded as a file
part, the resulting params map binds it to the spooled path and no
non-file value (plain or inside the "params" JSON part) can override it;
a file part whose field is not schema-declared is overwritten by a
non-file value of the same name (see the counterexample). -/
theorem multipart_schema_file_field_wins (input : Option Server.Schema)
    (fileParts valueParts : List (String × String))
    (jsonParse : String → Option (List (String × JsonVal)))
    (k p : String)
    (hk : k ∈ Server.getFileFields input)
    (hnd : (fileParts.map Prod.fst).Nodup)
    (hm : (k, p) ∈ fileParts) :
    jlookup (Server.parseRequestParams input fileParts valueParts jsonParse) k
      = some (JsonVal.str p) := by
  show jlookup (valueParts.foldl _
      (fileParts.foldl (fun ps fp => Server.setKey ps fp.1 (.str fp.2)) [])) k = _
  rw [jlookup_valuePhase valueParts _ (Server.getFileFields input) jsonParse k hk]
  exact jlookup_filePhase_mem fileParts [] k p hnd hm

/-- Witness for C2's amended rule: schema declares "img" as type file;
"img" is uploaded as a file spooled to /tmp/u1 and also supplied as the
non-file value "zzz" and as a member of the "params" JSON part; the
params map still binds "img" to /tmp/u1. -/
theorem multipart_schema_file_field_wins_witness :
    jlookup (Server.parseRequestParams
        (some (Server.Schema.node "object" [("img", some (Server.Schema.node "file" [] []))] []))
        [("img", "/tmp/u1")] [("img", "zzz"), ("params", "payload")]
        (fun _ => some [("img", JsonVal.str "fromjson")])) "img"
      = some (JsonVal.str "/tmp/u1") :=
  multipart_schema_file_field_wins
    (some (Server.Schema.node "object" [("img", some (Server.Schema.node "file" [] []))] []))
    [("img", "/tmp/u1")] [("img", "zzz"), ("params", "payload")]
    (fun _ => some [("img", JsonVal.str "fromjson")])
    "img" "/tmp/u1" (by decide) (by decide) (by decide)

/-- C5: eval-transport response handling: the textual reply is trimmed,
stripped of one pair of outer quotes, unescaped, then JSON-decoded as a
`CallResponse`; a decode failure returns the original raw text as the
result with no error; a decoded envelope with ok=false fails — with
`error.type: error.message` plus the traceback when one is present — and
ok=true returns the envelope's result. -/
theorem parse_response_cases
    (parse : List Char → Option JsonVal) (raw : List Char) :
    ((parse (Exec.preprocessResult raw)).bind Exec.decodeCallResponse = none →
      Exec.parseResponse parse raw = Except.ok (JsonVal.str (String.mk raw)))
    ∧ (∀ resp : Exec.CallResponse,
        (parse (Exec.preprocessResult raw)).bind Exec.decodeCallResponse = some resp →
          ((resp.ok = true → Exec.parseResponse parse raw = Except.ok resp.result)
          ∧ (resp.ok = false → ∀ e, resp.error = some e →
              Exec.parseResponse parse raw
                = Except.error (e.type ++ ": " ++ e.message
                    ++ (if e.traceback = "" then "" else "\n" ++ e.traceback)))
          ∧ (resp.ok = false → resp.error = none →
              Exec.parseResponse parse raw
                = Except.error "call failed with unknown error"))) := by
  constructor
  · intro h
    unfold Exec.parseResponse
    rw [h]
  · intro resp h
    unfold Exec.parseResponse
    rw [h]
    refine ⟨?_, ?_, ?_⟩
    · intro hok
      simp [hok]
    · intro hok e he
      simp [hok, he]
    · intro hok he
      simp [hok, he]

/-- Witness for C5: a parser that fails yields the raw text back with no
error; a parsed ok-envelope yields its result; a parsed error-envelope
yields "type: message". -/
theorem parse_response_cases_witness :
    Exec.parseResponse (fun _ => none) ("raw".data) = Except.ok (JsonVal.str "raw")
    ∧ Exec.parseResponse
        (fun _ => some (JsonVal.obj [("ok", JsonVal.boolean true),
          ("result", JsonVal.num 5)])) [] = Except.ok (JsonVal.num 5)
    ∧ Exec.parseResponse
        (fun _ => some (JsonVal.obj [("ok", JsonVal.boolean false),
          ("error", JsonVal.obj [("type", JsonVal.str "ValueError"),
            ("message", JsonVal.str "bad")])])) []
      = Except.error ("ValueError" ++ ": " ++ "bad" ++ "") := by
  refine ⟨?_, ?_, ?_⟩
  · exact (parse_response_cases (fun _ => none) ("raw".data)).1 rfl
  · exact ((parse_response_cases
      (fun _ => some (JsonVal.obj [("ok", JsonVal.boolean true),
        ("result", JsonVal.num 5)])) []).2
      ⟨true, JsonVal.num 5, none, false, JsonVal.null⟩ rfl).1 rfl
  · have h := ((parse_response_cases
      (fun _ => some (JsonVal.obj [("ok", JsonVal.boolean false),
        ("error", JsonVal.obj [("type", JsonVal.str "ValueError"),
          ("message", JsonVal.str "bad")])])) []).2
      ⟨false, JsonVal.null, some ⟨"ValueError", "bad", ""⟩, false, JsonVal.null⟩ rfl).2.1
      rfl ⟨"ValueError", "bad", ""⟩ rfl
    simpa using h

end JBServe
